import Mathlib

/-! Verification development for the node LTS fetch/extract/compress tool
(src/main.go). The Go program resolves the latest LTS release of Node.js,
downloads one archive per platform target, extracts the single node
executable from it, and recompresses that executable with zstd. The
definitions below are shallow embeddings of the functions of src/main.go;
effects on the local filesystem and the network are made explicit as
parameters and results. -/

namespace NodeFetch

/-- Go strings.HasSuffix, modelled on the character lists of the strings
(used at src/main.go:168 and src/main.go:210). -/
def hasSuffix (s suf : String) : Bool := List.isSuffixOf suf.data s.data

/-- Dynamic value of the interface-typed LTS field of NodeVersion
(src/main.go:19-22): JSON decoding stores a boolean, a string, or nil
(for JSON null and for an absent field) in it. -/
inductive LTSField
  | bool (b : Bool)
  | str (s : String)
  | null
  deriving DecidableEq

/-- NodeVersion record (src/main.go:19-22). -/
structure NodeVersion where
  version : String
  lts : LTSField
  deriving DecidableEq

/-- Go condition `v.LTS != false && v.LTS != nil` (src/main.go:97). -/
def ltsAccept (l : LTSField) : Bool := !(l == .bool false) && !(l == .null)

/-- Error outcomes of fetchLatestLTS (src/main.go:85-102): the http.Get
error, the JSON decode error, and the no-LTS-found error of line 101. -/
inductive FetchErr
  | transport
  | decode
  | notFound
  deriving DecidableEq

/-- Scan loop of fetchLatestLTS (src/main.go:96-101) over the decoded
descriptor list: the first accepted descriptor wins. -/
def fetchLatestLTSScan : List NodeVersion → Except FetchErr String
  | [] => .error .notFound
  | v :: rest => if ltsAccept v.lts then .ok v.version else fetchLatestLTSScan rest

/-- fetchLatestLTS (src/main.go:85-102). Failures of http.Get and of the
JSON decoder are modelled by the two boolean parameters; when both steps
succeed the decoded descriptor list is scanned in received order. -/
def fetchLatestLTS (httpFails decodeFails : Bool) (versions : List NodeVersion) :
    Except FetchErr String :=
  if httpFails then .error .transport
  else if decodeFails then .error .decode
  else fetchLatestLTSScan versions

/-- buildURL (src/main.go:132-139). -/
def buildURL (version platform : String) : String :=
  let ext := if platform.startsWith "win" then ".zip" else ".tar.xz"
  "https://nodejs.org/dist/" ++ version ++ "/node-" ++ version ++ "-" ++ platform ++ ext

/-- Download URL as the spec words it: base, then "/", then the version,
then "/node-", version, "-", platform identifier, and the extension,
where the extension is ".zip" exactly when the platform identifier starts
with "win" and the LZMA2-tar extension ".tar.xz" otherwise. Stated from
the spec text, to be compared with buildURL. -/
def specDownloadURL (version platform : String) : String :=
  "https://nodejs.org/dist" ++ "/" ++ version ++ "/node-" ++ version ++ "-" ++ platform ++
    (if platform.startsWith "win" then ".zip" else ".tar.xz")

/-- One archive member: its name (zip entry name, tar header name) and the
bytes of its body. A value of this type stands for one entry of a
well-formed archive, in archive order. -/
structure ArchiveEntry where
  name : String
  content : List Nat
  deriving DecidableEq

/-- Local IO failure oracle for the one entry an extractor touches:
f.Open of the selected zip entry (src/main.go:169), os.Create of the
destination (src/main.go:175 and src/main.go:211), and the io.Copy of the
body (src/main.go:181 and src/main.go:217). -/
structure ExtractIO where
  openEntryFails : Bool
  createFails : Bool
  copyFails : Bool
  deriving DecidableEq

/-- Oracle stating that none of the local IO steps fail. -/
def ioOK : ExtractIO := ⟨false, false, false⟩

/-- Result of an extraction: the bytes copied to the destination, a local
IO error, or the not-found error of src/main.go:186 and src/main.go:222. -/
inductive ExtractResult
  | ok (content : List Nat)
  | ioError
  | notFound
  deriving DecidableEq

/-- extractNodeFromZip (src/main.go:160-187): scan the central-directory
entries in order, act on the first whose name ends with "node.exe",
return the not-found error when no entry matches. -/
def extractNodeFromZip (entries : List ArchiveEntry) (o : ExtractIO) : ExtractResult :=
  match entries with
  | [] => .notFound
  | e :: rest =>
    if hasSuffix e.name "node.exe" then
      if o.openEntryFails then .ioError
      else if o.createFails then .ioError
      else if o.copyFails then .ioError
      else .ok e.content
    else extractNodeFromZip rest o

/-- extractNodeFromTarXZ (src/main.go:189-223): read tar headers in stream
order, act on the first whose name ends with "/bin/node", return the
not-found error when the stream ends with no match. The tar reader yields
the body directly, so there is no per-entry open step. -/
def extractNodeFromTarXZ (entries : List ArchiveEntry) (o : ExtractIO) : ExtractResult :=
  match entries with
  | [] => .notFound
  | e :: rest =>
    if hasSuffix e.name "/bin/node" then
      if o.createFails then .ioError
      else if o.copyFails then .ioError
      else .ok e.content
    else extractNodeFromTarXZ rest o

lemma ltsAccept_false_iff (l : LTSField) :
    ltsAccept l = false ↔ (l = .bool false ∨ l = .null) := by
  cases l with
  | bool b => cases b <;> simp [ltsAccept]
  | str s => simp [ltsAccept]
  | null => simp [ltsAccept]

lemma extractZip_notFound_iff (zs : List ArchiveEntry) (o : ExtractIO) :
    extractNodeFromZip zs o = .notFound ↔
      ∀ e ∈ zs, hasSuffix e.name "node.exe" = false := by
  induction zs with
  | nil => simp [extractNodeFromZip]
  | cons a rest ih =>
    by_cases h : hasSuffix a.name "node.exe" = true
    · rcases o with ⟨x, y, z⟩
      cases x <;> cases y <;> cases z <;> simp [extractNodeFromZip, h]
    · have hf : hasSuffix a.name "node.exe" = false := by
        cases hv : hasSuffix a.name "node.exe"
        · rfl
        · exact absurd hv h
      simp [extractNodeFromZip, hf, ih]

lemma extractZip_first (zs : List ArchiveEntry) (e : ArchiveEntry)
    (h : zs.find? (fun x => hasSuffix x.name "node.exe") = some e) :
    extractNodeFromZip zs ioOK = .ok e.content := by
  induction zs with
  | nil => simp [List.find?] at h
  | cons a rest ih =>
    cases ha : hasSuffix a.name "node.exe"
    · simp only [List.find?, ha] at h
      simp [extractNodeFromZip, ha]
      exact ih h
    · simp only [List.find?, ha, Option.some.injEq] at h
      subst h
      simp [extractNodeFromZip, ha, ioOK]

lemma extractTar_notFound_iff (ts : List ArchiveEntry) (o : ExtractIO) :
    extractNodeFromTarXZ ts o = .notFound ↔
      ∀ e ∈ ts, hasSuffix e.name "/bin/node" = false := by
  induction ts with
  | nil => simp [extractNodeFromTarXZ]
  | cons a rest ih =>
    by_cases h : hasSuffix a.name "/bin/node" = true
    · rcases o with ⟨x, y, z⟩
      cases x <;> cases y <;> cases z <;> simp [extractNodeFromTarXZ, h]
    · have hf : hasSuffix a.name "/bin/node" = false := by
        cases hv : hasSuffix a.name "/bin/node"
        · rfl
        · exact absurd hv h
      simp [extractNodeFromTarXZ, hf, ih]

lemma extractTar_first (ts : List ArchiveEntry) (e : ArchiveEntry)
    (h : ts.find? (fun x => hasSuffix x.name "/bin/node") = some e) :
    extractNodeFromTarXZ ts ioOK = .ok e.content := by
  induction ts with
  | nil => simp [List.find?] at h
  | cons a rest ih =>
    cases ha : hasSuffix a.name "/bin/node"
    · simp only [List.find?, ha] at h
      simp [extractNodeFromTarXZ, ha]
      exact ih h
    · simp only [List.find?, ha, Option.some.injEq] at h
      subst h
      simp [extractNodeFromTarXZ, ha, ioOK]

/-- C1: each extractor selects exactly the first entry, in archive order,
whose name ends with the expected executable name ("node.exe" for the zip
variant, "/bin/node" for the tar+LZMA2 variant), copies the bytes of that
entry to the destination, and fails with the not-found error exactly when
no entry matches, whatever the local IO oracle does. -/
theorem extraction_selects_first (zs ts : List ArchiveEntry) :
    (∀ o, extractNodeFromZip zs o = .notFound ↔
      ∀ e ∈ zs, hasSuffix e.name "node.exe" = false) ∧
    (∀ e, zs.find? (fun x => hasSuffix x.name "node.exe") = some e →
      extractNodeFromZip zs ioOK = .ok e.content) ∧
    (∀ o, extractNodeFromTarXZ ts o = .notFound ↔
      ∀ e ∈ ts, hasSuffix e.name "/bin/node" = false) ∧
    (∀ e, ts.find? (fun x => hasSuffix x.name "/bin/node") = some e →
      extractNodeFromTarXZ ts ioOK = .ok e.content) :=
  ⟨fun o => extractZip_notFound_iff zs o,
   fun e h => extractZip_first zs e h,
   fun o => extractTar_notFound_iff ts o,
   fun e h => extractTar_first ts e h⟩

/-- Witness for C1 on the archives of the testable-properties section of
the spec: the zip archive with entries a/node.exe and b/readme.txt, and
the tar archive with entries node-v1/bin/node and node-v1/LICENSE. -/
theorem extraction_selects_first_witness :
    extractNodeFromZip [⟨"a/node.exe", [1, 2]⟩, ⟨"b/readme.txt", [3]⟩] ioOK = .ok [1, 2] ∧
    extractNodeFromTarXZ [⟨"node-v1/bin/node", [4, 5]⟩, ⟨"node-v1/LICENSE", [6]⟩] ioOK
      = .ok [4, 5] :=
  ⟨(extraction_selects_first [⟨"a/node.exe", [1, 2]⟩, ⟨"b/readme.txt", [3]⟩]
      [⟨"node-v1/bin/node", [4, 5]⟩, ⟨"node-v1/LICENSE", [6]⟩]).2.1
      ⟨"a/node.exe", [1, 2]⟩ (by decide),
   (extraction_selects_first [⟨"a/node.exe", [1, 2]⟩, ⟨"b/readme.txt", [3]⟩]
      [⟨"node-v1/bin/node", [4, 5]⟩, ⟨"node-v1/LICENSE", [6]⟩]).2.2.2
      ⟨"node-v1/bin/node", [4, 5]⟩ (by decide)⟩

/-- C2: on a decoded descriptor sequence the resolver fails with the
not-found error exactly when every descriptor has LTS boolean false or
null/absent, and returns the version of the first descriptor whose LTS
field is neither. -/
theorem fetchLatestLTS_first (vs : List NodeVersion) :
    (fetchLatestLTS false false vs = .error .notFound ↔
      ∀ v ∈ vs, v.lts = .bool false ∨ v.lts = .null) ∧
    (∀ pre v post, vs = pre ++ v :: post →
      (∀ u ∈ pre, u.lts = .bool false ∨ u.lts = .null) →
      ¬(v.lts = .bool false ∨ v.lts = .null) →
      fetchLatestLTS false false vs = .ok v.version) := by
  constructor
  · show fetchLatestLTSScan vs = .error .notFound ↔ _
    induction vs with
    | nil => simp [fetchLatestLTSScan]
    | cons a rest ih =>
      cases hacc : ltsAccept a.lts
      · have := (ltsAccept_false_iff a.lts).mp hacc
        simp [fetchLatestLTSScan, hacc, ih, this]
      · have hne : ¬(a.lts = .bool false ∨ a.lts = .null) := by
          intro hcon
          have := (ltsAccept_false_iff a.lts).mpr hcon
          rw [this] at hacc
          exact Bool.false_ne_true hacc
        simp [fetchLatestLTSScan, hacc, hne]
  · intro pre v post hsplit hpre hv
    subst hsplit
    show fetchLatestLTSScan (pre ++ v :: post) = .ok v.version
    induction pre with
    | nil =>
      have hacc : ltsAccept v.lts = true := by
        cases hval : ltsAccept v.lts
        · exact absurd ((ltsAccept_false_iff v.lts).mp hval) hv
        · rfl
      simp [fetchLatestLTSScan, hacc]
    | cons a rest ih =>
      have ha : a.lts = .bool false ∨ a.lts = .null := hpre a (by simp)
      have hacc : ltsAccept a.lts = false := (ltsAccept_false_iff a.lts).mpr ha
      have hrest : ∀ u ∈ rest, u.lts = .bool false ∨ u.lts = .null := by
        intro u hu
        exact hpre u (by simp [hu])
      simpa [fetchLatestLTSScan, hacc] using ih hrest

/-- Witness for C2 on the example of the testable-properties section:
descriptors v1 with LTS false and v2 with LTS "Hydrogen" resolve to v2. -/
theorem fetchLatestLTS_first_witness :
    fetchLatestLTS false false
      [⟨"v1", .bool false⟩, ⟨"v2", .str "Hydrogen"⟩] = .ok "v2" :=
  (fetchLatestLTS_first [⟨"v1", .bool false⟩, ⟨"v2", .str "Hydrogen"⟩]).2
    [⟨"v1", .bool false⟩] ⟨"v2", .str "Hydrogen"⟩ [] rfl (by decide) (by decide)

/-- C5: the URL built by the program equals the URL the spec describes,
for every version string and every platform identifier. -/
theorem buildURL_eq_spec (v p : String) : buildURL v p = specDownloadURL v p := by
  unfold buildURL specDownloadURL
  have hbase : ("https://nodejs.org/dist" ++ "/" : String) = "https://nodejs.org/dist/" := rfl
  cases h : p.startsWith "win" <;>
    simp only [h, if_true, if_false, Bool.false_eq_true, ← hbase, String.append_assoc]

/-- Status of one file on disk: not present, created but not completely
written, or completely written. -/
inductive FileStatus
  | absent
  | truncated
  | complete
  deriving DecidableEq

/-- Which of the local steps of downloadFile (src/main.go:141-158) fail:
http.Get (line 142), os.Create of the destination (line 148), and the
io.Copy of the body (line 155). -/
structure DownloadInput where
  httpFails : Bool
  createFails : Bool
  copyFails : Bool
  deriving DecidableEq, Fintype

/-- Effect of downloadFile (src/main.go:141-158) on the destination file:
whether the call returned nil, and the state of the file afterwards. The
http.Get failure happens before os.Create, so no file appears; a failed
io.Copy leaves the bytes written so far in place. -/
def downloadFileFS (i : DownloadInput) : Bool × FileStatus :=
  if i.httpFails then (false, .absent)
  else if i.createFails then (false, .absent)
  else if i.copyFails then (false, .truncated)
  else (true, .complete)

/-- Which of the steps of an extraction fail: opening/decoding the archive
(src/main.go:161 or src/main.go:190-199), whether any entry matches the
expected suffix, opening the matched zip entry (src/main.go:169), creating
the destination (src/main.go:175 or src/main.go:211), and copying the body
(src/main.go:181 or src/main.go:217). -/
structure ExtractInput where
  archiveFails : Bool
  found : Bool
  openEntryFails : Bool
  createFails : Bool
  copyFails : Bool
  deriving DecidableEq, Fintype

/-- Effect of extractNodeFromZip / extractNodeFromTarXZ on the destination
file: both variants create the destination only after a matching entry is
found, and a failed copy leaves the partially written destination behind. -/
def extractFS (i : ExtractInput) : Bool × FileStatus :=
  if i.archiveFails then (false, .absent)
  else if !i.found then (false, .absent)
  else if i.openEntryFails then (false, .absent)
  else if i.createFails then (false, .absent)
  else if i.copyFails then (false, .truncated)
  else (true, .complete)

/-- Which of the steps of compressZstd (src/main.go:225-248) fail:
os.Open of the input (line 226), in.Stat (line 232), os.Create of the
output (line 233), zstd.NewWriter (line 239), and the io.Copy (line 246). -/
structure CompressInput where
  openFails : Bool
  statFails : Bool
  createFails : Bool
  encFails : Bool
  copyFails : Bool
  deriving DecidableEq, Fintype

/-- How one call of a pipeline stage ends: returns nil, returns an error,
or panics. -/
inductive RunResult
  | ok
  | err
  | panicked
  deriving DecidableEq

/-- Effect of compressZstd (src/main.go:225-248) on the output file. The
error of in.Stat is discarded at line 232; when in.Stat failed, info is
the nil interface, and the call info.Size() at line 245 dereferences it:
the function panics there instead of returning an error. The panic point
sits after os.Create and zstd.NewWriter, so a failure of either of those
returns that error before the dereference, and the panic itself leaves
the freshly created, not yet written output file behind. -/
def compressZstdFS (i : CompressInput) : RunResult × FileStatus :=
  if i.openFails then (.err, .absent)
  else if i.createFails then (.err, .absent)
  else if i.encFails then (.err, .truncated)
  else if i.statFails then (.panicked, .truncated)
  else if i.copyFails then (.err, .truncated)
  else (.ok, .complete)

/-- Failure oracle of one full processTarget run. -/
structure PipelineInput where
  download : DownloadInput
  extract : ExtractInput
  compress : CompressInput
  deriving DecidableEq, Fintype

/-- State of the three files a processTarget run touches, all derived from
the output filename: outFile + ".tmp", outFile + ".nodebin", outFile. -/
structure FSState where
  tmpF : FileStatus
  exeF : FileStatus
  outF : FileStatus
  deriving DecidableEq

/-- processTarget (src/main.go:104-130), starting from a filesystem where
none of the three files exist. The defer of os.Remove(tmpFile) is
registered only after a successful download (line 112), so it runs on
every later exit, panic included, while a failed download leaves whatever
downloadFile wrote. The call os.Remove(exeFile) at line 128 is not
deferred: it runs only when compressZstd returned nil, so an error or
panic of compressZstd keeps the extracted executable on disk. -/
def processTarget (i : PipelineInput) : RunResult × FSState :=
  match downloadFileFS i.download with
  | (false, tmpSt) => (.err, ⟨tmpSt, .absent, .absent⟩)
  | (true, _) =>
    match extractFS i.extract with
    | (false, exeSt) => (.err, ⟨.absent, exeSt, .absent⟩)
    | (true, _) =>
      match compressZstdFS i.compress with
      | (.ok, outSt) => (.ok, ⟨.absent, .absent, outSt⟩)
      | (r, outSt) => (r, ⟨.absent, .complete, outSt⟩)

lemma compressZstdFS_complete_iff : ∀ c : CompressInput,
    ((compressZstdFS c).2 = .complete ↔ (compressZstdFS c).1 = .ok) := by
  decide

lemma compressZstdFS_truncated : ∀ c : CompressInput,
    (compressZstdFS c).2 = .truncated →
      ((compressZstdFS c).1 ≠ .ok ∧ c.openFails = false ∧ c.createFails = false) := by
  decide

/-- C3 counterexample: a run whose compression io.Copy fails reports
failure, yet the output file exists (truncated) after the run, because
compressZstd created it before copying and nobody removes it. -/
theorem processTarget_partial_output :
    (processTarget ⟨⟨false, false, false⟩, ⟨false, true, false, false, false⟩,
        ⟨false, false, false, false, true⟩⟩).1 = .err ∧
    (processTarget ⟨⟨false, false, false⟩, ⟨false, true, false, false, false⟩,
        ⟨false, false, false, false, true⟩⟩).2.outF ≠ .absent := by
  decide

/-- C3 amended: the output file is complete exactly when the whole run
succeeded, and a failed download or extraction leaves no output file at
all; but a compression failure that happens after the output file was
created (encoder-construction failure, the stat-induced panic, or a copy
failure) leaves a truncated output file behind. -/
theorem processTarget_output : ∀ i : PipelineInput,
    ((processTarget i).2.outF = .complete ↔ (processTarget i).1 = .ok) ∧
    ((processTarget i).1 = .ok ↔
      ((downloadFileFS i.download).1 = true ∧ (extractFS i.extract).1 = true ∧
        (compressZstdFS i.compress).1 = .ok)) ∧
    (((downloadFileFS i.download).1 = false ∨ (extractFS i.extract).1 = false) →
      (processTarget i).2.outF = .absent) ∧
    ((processTarget i).2.outF = .truncated →
      ((processTarget i).1 ≠ .ok ∧ i.compress.openFails = false ∧
        i.compress.createFails = false)) := by
  rintro ⟨d, e, c⟩
  rcases hd : downloadFileFS d with ⟨ds, dst⟩
  rcases he : extractFS e with ⟨es, est⟩
  rcases hc : compressZstdFS c with ⟨cs, cst⟩
  have h2 := compressZstdFS_complete_iff c
  have h3 := compressZstdFS_truncated c
  rw [hc] at h2 h3
  cases ds <;> cases es <;> cases cs <;>
    simp_all [processTarget, hd, he, hc]

/-- Witness for C3 amended: a run whose download fails at http.Get leaves
no output file. -/
theorem processTarget_output_witness :
    (processTarget ⟨⟨true, false, false⟩, ⟨false, true, false, false, false⟩,
        ⟨false, false, false, false, false⟩⟩).2.outF = .absent :=
  (processTarget_output ⟨⟨true, false, false⟩, ⟨false, true, false, false, false⟩,
      ⟨false, false, false, false, false⟩⟩).2.2.1 (Or.inl (by decide))

/-- C4 counterexample: a run that reaches compression and fails there
(zstd.NewWriter error) ends with the intermediate extracted executable
still on disk, because os.Remove(exeFile) at src/main.go:128 runs only on
the success path. -/
theorem processTarget_intermediate_left :
    (processTarget ⟨⟨false, false, false⟩, ⟨false, true, false, false, false⟩,
        ⟨false, false, false, true, false⟩⟩).1 = .err ∧
    (processTarget ⟨⟨false, false, false⟩, ⟨false, true, false, false, false⟩,
        ⟨false, false, false, true, false⟩⟩).2.exeF = .complete := by
  decide

/-- C4 amended: in a run that reaches the compression stage, the
intermediate extracted-executable file is removed by the end of the run
exactly when compression succeeds; on a compression error or panic it
remains on disk. -/
theorem processTarget_intermediate : ∀ i : PipelineInput,
    (downloadFileFS i.download).1 = true → (extractFS i.extract).1 = true →
    ((processTarget i).2.exeF = .absent ↔ (compressZstdFS i.compress).1 = .ok) := by
  rintro ⟨d, e, c⟩ hds hes
  rcases hd : downloadFileFS d with ⟨ds, dst⟩
  rcases he : extractFS e with ⟨es, est⟩
  rcases hc : compressZstdFS c with ⟨cs, cst⟩
  rw [hd] at hds
  rw [he] at hes
  subst hds
  subst hes
  cases cs <;> simp_all [processTarget, hd, he, hc]

/-- Witness for C4 amended at the all-success run. -/
theorem processTarget_intermediate_witness :
    (processTarget ⟨⟨false, false, false⟩, ⟨false, true, false, false, false⟩,
        ⟨false, false, false, false, false⟩⟩).2.exeF = .absent ↔
      (compressZstdFS ⟨false, false, false, false, false⟩).1 = .ok :=
  processTarget_intermediate ⟨⟨false, false, false⟩, ⟨false, true, false, false, false⟩,
      ⟨false, false, false, false, false⟩⟩ (by decide) (by decide)

/-- C10 counterexample: when in.Stat fails and os.Create of the output
also fails, compressZstd returns the create error before reaching the
nil dereference, so a stat failure does not always panic. -/
theorem compressZstd_stat_masked :
    (compressZstdFS ⟨false, true, true, false, false⟩).1 = .err ∧
    (compressZstdFS ⟨false, true, true, false, false⟩).1 ≠ .panicked := by
  decide

/-- C10 amended: compressZstd discards the error of in.Stat; whenever
in.Stat fails and the output creation and encoder construction succeed,
the nil file-info is dereferenced at info.Size() and the function panics
instead of returning an error; and it panics in exactly those runs. -/
theorem compressZstd_stat_panic :
    (∀ cp : Bool, compressZstdFS ⟨false, true, false, false, cp⟩ = (.panicked, .truncated)) ∧
    (∀ i : CompressInput, ((compressZstdFS i).1 = .panicked ↔
      (i.openFails = false ∧ i.createFails = false ∧ i.encFails = false ∧
        i.statFails = true))) := by
  decide

/-- Counting abstraction of the goroutine pool of main (src/main.go:62-81):
how many of the launched goroutines have not yet acquired the semaphore,
how many currently hold a slot, and how many have released it again. -/
structure OrchState where
  idleN : Nat
  holdN : Nat
  doneN : Nat
  deriving DecidableEq

/-- Transitions of the batch orchestrator. The semaphore is the buffered
channel of capacity 3 created at src/main.go:65: a goroutine acquires a
slot by sending into the channel (line 70), which can happen only while
fewer than 3 values sit in it, and releases the slot by the deferred
receive (line 71) when its pipeline finished. -/
inductive OrchStep : OrchState → OrchState → Prop
  | acquire (s : OrchState) (hidle : 0 < s.idleN) (hcap : s.holdN < 3) :
      OrchStep s ⟨s.idleN - 1, s.holdN + 1, s.doneN⟩
  | release (s : OrchState) (hhold : 0 < s.holdN) :
      OrchStep s ⟨s.idleN, s.holdN - 1, s.doneN + 1⟩

/-- States the orchestrator can reach after launching n goroutines, none
of which has touched the semaphore yet. -/
inductive OrchReachable (n : Nat) : OrchState → Prop
  | init : OrchReachable n ⟨n, 0, 0⟩
  | step {s t : OrchState} : OrchReachable n s → OrchStep s t → OrchReachable n t

/-- C6: in every reachable state of the batch orchestrator, for any number
of launched targets and any interleaving, at most 3 pipelines hold an
admission slot simultaneously. -/
theorem semaphore_bound (n : Nat) (s : OrchState) (h : OrchReachable n s) :
    s.holdN ≤ 3 := by
  induction h with
  | init => exact Nat.zero_le 3
  | step hr hstep ih =>
    cases hstep with
    | acquire hidle hcap => exact hcap
    | release hhold => exact le_trans (Nat.sub_le _ _) ih

/-- Witness for C6: with 8 launched targets, after one acquisition the
holder count is 1, within the bound. -/
theorem semaphore_bound_witness : (⟨7, 1, 0⟩ : OrchState).holdN ≤ 3 :=
  semaphore_bound 8 ⟨7, 1, 0⟩
    (OrchReachable.step OrchReachable.init
      (OrchStep.acquire ⟨8, 0, 0⟩ (by decide) (by decide)))

/-- ProgressWriter counters (src/main.go:36-41). The LastUpdate clock is
abstracted away: each call to write below receives the boolean outcome of
the 300ms comparison of line 47 instead. -/
structure ProgressWriter where
  total : Int
  written : Int
  deriving DecidableEq

/-- One call of ProgressWriter.Write (src/main.go:43-53): add the chunk
length to Written, emit the percentage Written/Total*100 when more than
300ms passed since the last emission (the fire flag), and return the pair
(len(p), nil) that Go demands of a well-behaved Writer. Percentages are
modelled as rationals. -/
def ProgressWriter.write (pw : ProgressWriter) (p : List Nat) (fire : Bool) :
    ProgressWriter × Option ℚ × (Nat × Option String) :=
  let n := p.length
  let written := pw.written + n
  let emitted : Option ℚ := if fire then some ((written : ℚ) / (pw.total : ℚ) * 100) else none
  (⟨pw.total, written⟩, emitted, (n, none))

/-- Emissions of a complete io.Copy through a TeeReader into a
ProgressWriter: one Write call per delivered chunk, each chunk paired
with the outcome of its throttle comparison. -/
def pwRun (pw : ProgressWriter) : List (List Nat × Bool) → List ℚ
  | [] => []
  | (p, fire) :: rest =>
    let r := pw.write p fire
    r.2.1.toList ++ pwRun r.1 rest

/-- Progress lines of a completed downloadFile call (src/main.go:154-156):
the throttled emissions of the tee, then the unconditional final 100 of
line 156. -/
def downloadProgress (total : Int) (chunks : List (List Nat × Bool)) : List ℚ :=
  pwRun ⟨total, 0⟩ chunks ++ [100]

/-- Progress lines of a completed compressZstd call (src/main.go:245-247):
the throttled emissions of the tee, then the unconditional final 100 of
line 247. -/
def compressProgress (size : Int) (chunks : List (List Nat × Bool)) : List ℚ :=
  pwRun ⟨size, 0⟩ chunks ++ [100]

/-- C7: for every download stream and every compression stream that runs
to completion, the final progress emission is exactly 100, whatever the
declared total, the chunking, and the firing pattern of the 300ms
throttle. -/
theorem final_progress_hundred :
    ∀ (dt cs : Int) (dchunks cchunks : List (List Nat × Bool)),
      (downloadProgress dt dchunks).getLast? = some 100 ∧
      (compressProgress cs cchunks).getLast? = some 100 := by
  intro dt cs dchunks cchunks
  exact ⟨List.getLast?_concat _, List.getLast?_concat _⟩

/-- C9: ProgressWriter.Write always returns the full chunk length and a
nil error, for every writer state, chunk and throttle outcome, so the
progress tee can never cause a download or compression failure. -/
theorem progressWriter_write_ret :
    ∀ (pw : ProgressWriter) (p : List Nat) (fire : Bool),
      (pw.write p fire).2.2 = (p.length, none) :=
  fun _ _ _ => rfl

/-- HTTP response as downloadFile sees it: the status code, the declared
content length, and the body bytes. -/
structure HTTPResponse where
  statusCode : Nat
  contentLength : Int
  body : List Nat
  deriving DecidableEq

/-- Outcome of a downloadFile call at the response level. -/
inductive DownloadResult
  | ok (fileBytes : List Nat)
  | transportErr
  | ioErr
  deriving DecidableEq

/-- downloadFile (src/main.go:141-158) at the response level: resp = none
models a failed http.Get; otherwise the body is streamed to the file.
No branch of the source inspects resp.StatusCode, so none appears here. -/
def downloadFile (resp : Option HTTPResponse) (createFails copyFails : Bool) :
    DownloadResult :=
  match resp with
  | none => .transportErr
  | some r =>
    if createFails then .ioErr
    else if copyFails then .ioErr
    else .ok r.body

/-- C8: every response whose body can be read to the end is reported as a
successful download carrying exactly the body bytes, independently of the
status code; in particular a 404 response body lands in the destination
file as a success. -/
theorem downloadFile_ignores_status :
    ∀ (r : HTTPResponse),
      downloadFile (some r) false false = .ok r.body ∧
      downloadFile (some ⟨404, r.contentLength, r.body⟩) false false = .ok r.body :=
  fun _ => ⟨rfl, rfl⟩

end NodeFetch
